import Mathlib

/-!
Verification of the mtgjson provider/reconciliation spec against a shallow
embedding of `mtgjson5/providers/gatherer.py` and `mtgjson4/mtg_storage.py`.

Strings are modelled as `List Char`; each Python string primitive used by the
source (`str.replace`, `str.split`, `str.strip`, `str.rstrip`, `in`,
`str.startswith`-style prefix tests) is given an executable model, and each of
the three regular expressions appearing in the source is modelled by a
dedicated executable function on character lists.
-/

/-- Character list of a string literal. -/
def chars (s : String) : List Char := s.data

/-- Python `str.strip()` whitespace class (ASCII part). -/
def isPySpace (c : Char) : Bool :=
  c = ' ' || c = '\t' || c = '\n' || c = '\r' || c = Char.ofNat 11 || c = Char.ofNat 12

/-- Python `s.strip()`: drop leading and trailing whitespace. -/
def pyStrip (l : List Char) : List Char :=
  ((l.dropWhile isPySpace).reverse.dropWhile isPySpace).reverse

/-- Python `s.rstrip(":")`: drop trailing colon characters. -/
def rstripColon (l : List Char) : List Char :=
  (l.reverse.dropWhile (fun c => c = ':')).reverse

/-- Python `s.split("\n")` (keeps empty fields; `"".split("\n") = [""]`). -/
def splitNl : List Char → List (List Char)
  | [] => [[]]
  | c :: t =>
    if c = '\n' then [] :: splitNl t
    else
      match splitNl t with
      | h :: r => (c :: h) :: r
      | [] => [[c]]

/-- Python `"\n".join(lines)`. -/
def intercalateNl : List (List Char) → List Char
  | [] => []
  | [l] => l
  | l :: rest => l ++ '\n' :: intercalateNl rest

/-- Boolean test that `p` is a prefix of `s`. -/
def startsWithL : List Char → List Char → Bool
  | [], _ => true
  | _ :: _, [] => false
  | a :: as, b :: bs => a = b && startsWithL as bs

/-- Python `sub in s`: substring containment test. -/
def containsSub (p : List Char) : List Char → Bool
  | [] => startsWithL p []
  | c :: t => startsWithL p (c :: t) || containsSub p t

/-- `p` occurs as a contiguous substring of `s`. -/
def SubstringOf (p s : List Char) : Prop := ∃ u v, u ++ p ++ v = s

/-- Python `s.replace("", new)`: `new` is inserted before every character and
at the end. -/
def pythonEmptyRep (new : List Char) (s : List Char) : List Char :=
  new ++ s.flatMap (fun c => c :: new)

/-- Fuel-driven worker for `str.replace` with a nonempty pattern: scan left to
right, replacing each non-overlapping occurrence of `old` by `new`. -/
def pyReplaceFuel (old new : List Char) : Nat → List Char → List Char
  | 0, s => s
  | _ + 1, [] => []
  | f + 1, c :: t =>
    if startsWithL old (c :: t) then
      new ++ pyReplaceFuel old new f (t.drop (old.length - 1))
    else
      c :: pyReplaceFuel old new f t

/-- Python `s.replace(old, new)` (all occurrences, left to right). -/
def pyReplace (old new s : List Char) : List Char :=
  match old with
  | [] => pythonEmptyRep new s
  | _ :: _ => pyReplaceFuel old new s.length s

/-- The character class `[^ ({\"\-−+/>A-Z]` of the line-break regex in
`GathererProvider._parse_column` (true when the character is in the class,
i.e. not one of the excluded characters). -/
def inBreakClass1 (c : Char) : Bool :=
  !(c = ' ' || c = '\x7b' || c = '(' || c = '"' || c = '-' || c = '−' ||
    c = '+' || c = '/' || c = '>' || ('A' ≤ c && c ≤ 'Z'))

/-- The class `[A-Z]` of the line-break regex. -/
def isUpperAZ (c : Char) : Bool := 'A' ≤ c && c ≤ 'Z'

/-- An adjacent pair matched by `re.sub(r"([^ ({\"\-−+/>A-Z])([A-Z])", r"\1\n\2", _)`. -/
def breakPair (c1 c2 : Char) : Bool := inBreakClass1 c1 && isUpperAZ c2

/-- Model of the line-break regex substitution: insert `'\n'` between every
adjacent pair matched by `breakPair`.  Because the second class (`[A-Z]`) is
disjoint from the first class, matches of the regex can never overlap, so the
global `re.sub` coincides with this pairwise insertion. -/
def insertBreaks : List Char → List Char
  | [] => []
  | [c] => [c]
  | c1 :: c2 :: rest =>
    c1 :: ((if breakPair c1 c2 then ['\n'] else []) ++ insertBreaks (c2 :: rest))

/-- Split a character list at its first `')'`, returning the parts before and
after it. -/
def splitAtClose : List Char → Option (List Char × List Char)
  | [] => none
  | c :: t =>
    if c = ')' then some ([], t)
    else
      match splitAtClose t with
      | some (a, b) => some (c :: a, b)
      | none => none

/-- Fuel-driven model of `re.sub(r" \([^)]*\)", "", text)`: each occurrence of
a space, an opening parenthesis, a run of non-`')'` characters and a closing
parenthesis is removed; scanning resumes after the removed match. -/
def stripParensFuel : Nat → List Char → List Char
  | 0, s => s
  | _ + 1, [] => []
  | f + 1, ' ' :: '(' :: rest =>
    match splitAtClose rest with
    | some (_, after) => stripParensFuel f after
    | none => ' ' :: stripParensFuel f ('(' :: rest)
  | f + 1, c :: t => c :: stripParensFuel f t

/-- `GathererProvider.strip_parentheses_from_text`:
`re.sub(r" \([^)]*\)", "", text).replace("  ", " ").strip()`. -/
def strip_parentheses_from_text (t : List Char) : List Char :=
  pyStrip (pyReplace [' ', ' '] [' '] (stripParensFuel t.length t))

/-- Split a character list at its first `'>'`. -/
def splitAtGt : List Char → Option (List Char × List Char)
  | [] => none
  | c :: t =>
    if c = '>' then some ([], t)
    else
      match splitAtGt t with
      | some (a, b) => some (c :: a, b)
      | none => none

/-- Fuel-driven model of `re.sub(r"<[^>]+>", "", text)`: remove every run
`<...>` whose interior is nonempty and free of `'>'`. -/
def tagStripFuel : Nat → List Char → List Char
  | 0, s => s
  | _ + 1, [] => []
  | f + 1, '<' :: rest =>
    (match splitAtGt rest with
     | some (inside, after) =>
       if inside = [] then '<' :: tagStripFuel f rest
       else tagStripFuel f after
     | none => '<' :: tagStripFuel f rest)
  | f + 1, c :: t => c :: tagStripFuel f t

/-- `re.sub(r"<[^>]+>", "", text)` on a whole string. -/
def tagStripAll (t : List Char) : List Char := tagStripFuel t.length t

/-- Python dict lookup on an association list with unique keys. -/
def dictGet {β : Type} : List (List Char × β) → List Char → Option β
  | [], _ => none
  | (a, b) :: t, k => if a = k then some b else dictGet t k

/-- Python dict assignment `d[k] = v`: overwrite in place when the key exists
(keeping its position, as Python dicts do), else append. -/
def dictInsert {β : Type} : List (List Char × β) → List Char → β → List (List Char × β)
  | [], k, v => [(k, v)]
  | (a, b) :: t, k, v =>
    if a = k then (a, v) :: t else (a, b) :: dictInsert t k v

/-!
Model of `GathererProvider.parse_cards` / `_parse_column` / `_replace_symbols`
(mtgjson5/providers/gatherer.py).  A detail page is observed through the data
the source actually reads from the HTML: each `div.row` contributes a label
string and a value div; a value div is observed via `getText(strip=True)`
(`plainText`), its `div.flavortextbox` children's stripped texts
(`flavorBoxes`) and its `div.cardtextbox` children's inline contents
(`textBoxes`), where an inline item is either a text node or an `img` tag
carrying an `alt` attribute.
-/

/-- An inline HTML node inside a `cardtextbox` div. -/
inductive Inline where
  | text (s : List Char) : Inline
  | img (alt : List Char) : Inline

/-- Observations of a labelled value div on a Gatherer detail page. -/
structure ValueDiv where
  plainText : List Char
  flavorBoxes : List (List Char)
  textBoxes : List (List Inline)

/-- One `div.row`: its label div's stripped text and its value div. -/
structure RowDiv where
  label : List Char
  value : ValueDiv

/-- `GathererCard` named tuple of the source. -/
structure GathererCard where
  card_name : List Char
  original_types : List Char
  original_text : Option (List Char)
  flavor_text : Option (List Char)
deriving DecidableEq

/-- Python exceptions that the modelled code can raise. -/
inductive PyError where
  | keyError : PyError
  | attrError : PyError
deriving DecidableEq

/-- `GathererProvider._replace_symbols` on one inline node: an `img` is
replaced by `SYMBOL_MAP.get(alt, alt)` wrapped in braces; text is kept.  The
symbol table is a parameter of the model (`constants.SYMBOL_MAP`). -/
def replaceSymbolInline (table : List (List Char × List Char)) : Inline → Inline
  | .text s => .text s
  | .img alt => .text ('\x7b' :: ((dictGet table alt).getD alt ++ ['\x7d']))

/-- `GathererProvider._replace_symbols` over a whole `cardtextbox`. -/
def replace_symbols (table : List (List Char × List Char)) (box : List Inline) : List Inline :=
  box.map (replaceSymbolInline table)

/-- `getText()` of an inline node (an `img` tag contributes no text). -/
def inlineText : Inline → List Char
  | .text s => s
  | .img _ => []

/-- `self._replace_symbols(textbox).getText()`. -/
def boxText (table : List (List Char × List Char)) (box : List Inline) : List Char :=
  ((replace_symbols table box).map inlineText).flatten

/-- The dict comprehension of `_parse_column`: label text (with trailing
colons stripped) mapped to the row's value div; later rows overwrite. -/
def labelMap (col : List RowDiv) : List (List Char × ValueDiv) :=
  col.foldl (fun m r => dictInsert m (rstripColon r.label) r.value) []

/-- Lines 202-206 of gatherer.py: mask occurrences of the card's name as
`"(CN)"`, run the line-break regex, then restore the name. -/
def maskLineBreaks (card_name : List Char) (s : List Char) : List Char :=
  pyReplace (chars "(CN)") card_name
    (insertBreaks (pyReplace card_name (chars "(CN)") s))

/-- The `original_text_lines` accumulated for a `Card Text` value div. -/
def rulesLinesOfDiv (table : List (List Char × List Char)) (card_name : List Char)
    (d : ValueDiv) : List (List Char) :=
  d.textBoxes.flatMap (fun box => splitNl (maskLineBreaks card_name (pyStrip (boxText table box))))

/-- Python `x or None` on a (already stripped) string. -/
def orNone (t : List Char) : Option (List Char) :=
  if t = [] then none else some t

/-- `"\n".join(original_text_lines).strip() or None` for a column. -/
def rulesTextRaw (table : List (List Char × List Char)) (col : List RowDiv)
    (card_name : List Char) : Option (List Char) :=
  orNone (pyStrip (intercalateNl
    (match dictGet (labelMap col) (chars "Card Text") with
     | none => []
     | some d => rulesLinesOfDiv table card_name d)))

/-- Line 217 of gatherer.py:
`re.sub(r"<[^>]+>", "", original_text) if original_text else None`. -/
def finalizeText : Option (List Char) → Option (List Char)
  | none => none
  | some t => if t = [] then none else some (tagStripAll t)

/-- `GathererProvider._parse_column`.  A missing required label (`Card Name`,
`Types`) is the dict `KeyError` of the source; the error aborts the caller. -/
def parse_column (table : List (List Char × List Char)) (col : List RowDiv)
    (strip_parentheses : Bool) : Except PyError GathererCard :=
  match dictGet (labelMap col) (chars "Card Name") with
  | none => .error .keyError
  | some nameDiv =>
    match dictGet (labelMap col) (chars "Types") with
    | none => .error .keyError
    | some typesDiv =>
      let card_name := nameDiv.plainText
      let flavor_lines : List (List Char) :=
        match dictGet (labelMap col) (chars "Flavor Text") with
        | none => []
        | some d => d.flavorBoxes
      let original_text : Option (List Char) := rulesTextRaw table col card_name
      let original_text : Option (List Char) :=
        if strip_parentheses then original_text.map strip_parentheses_from_text
        else original_text
      .ok
        { card_name := card_name
          original_types := typesDiv.plainText
          original_text := finalizeText original_text
          flavor_text := orNone (pyStrip (intercalateNl flavor_lines)) }

/-- `GathererProvider.parse_cards`: the list comprehension over all
`td.rightCol` columns; the first raised exception aborts the whole page. -/
def parse_cards (table : List (List Char × List Char)) (cols : List (List RowDiv))
    (strip_parentheses : Bool) : Except PyError (List GathererCard) :=
  match cols with
  | [] => .ok []
  | c :: rest =>
    match parse_column table c strip_parentheses with
    | .error e => .error e
    | .ok card =>
      match parse_cards table rest strip_parentheses with
      | .error e => .error e
      | .ok cards => .ok (card :: cards)

/-- `GathererProvider.SETS_TO_REMOVE_PARENTHESES`. -/
def SETS_TO_REMOVE_PARENTHESES : List (List Char) := [chars "10E"]

/-- `GathererProvider.get_cards`: a failed download yields `[]`; otherwise the
page is parsed with `set_code in SETS_TO_REMOVE_PARENTHESES`. -/
def get_cards (table : List (List Char × List Char))
    (response : Option (List (List RowDiv))) (set_code : List Char) :
    Except PyError (List GathererCard) :=
  match response with
  | none => .ok []
  | some page => parse_cards table page (SETS_TO_REMOVE_PARENTHESES.contains set_code)

/-!
Model of `GathererProvider.download` and
`GathererProvider.get_collector_number_to_multiverse_id_mapping`.  The network
is a function from page number to the outcome of the HTTP GET: either one of
the exceptions caught inside `download`, or a response with a status code and
the parsed observations of the checklist page.  `download` logs a warning and
returns `None` on an exception or a non-200 status.  The mapping function
iterates `for page_number in range(0, 10)` and immediately dereferences
`response.text`; when `download` returned `None` this is the `AttributeError`
of the source.  A missing `div.pagingcontrols` likewise makes
`.find_all("a")` raise `AttributeError`.
-/

/-- One row `tr.cardItem` of a checklist table: the text of its `td.number`
cell and the `href` of the anchor in its `td.name` cell. -/
structure ChecklistRow where
  number : List Char
  href : List Char

/-- An anchor inside `div.pagingcontrols`: its `style` attribute and text. -/
structure PagingLink where
  style : List Char
  text : List Char

/-- Observations of one checklist response page: the `table.checklist` rows
(none when the table is absent) and the anchors of `div.pagingcontrols`
(none when that div is absent). -/
structure ChecklistPage where
  table : Option (List ChecklistRow)
  pagingControls : Option (List PagingLink)

/-- Outcome of the HTTP GET inside `download` for one checklist page. -/
inductive DownloadOutcome where
  | exc : DownloadOutcome
  | resp (status : Nat) (page : ChecklistPage) : DownloadOutcome

/-- `GathererProvider.download` for a checklist URL: `None` plus a logged
warning on an exception or non-200 status, else the response page.  The
second component records the page numbers for which `LOGGER.warning` fired. -/
def downloadChecklist (net : Nat → DownloadOutcome) (n : Nat) :
    Option ChecklistPage × List Nat :=
  match net n with
  | .exc => (none, [n])
  | .resp status page => if status = 200 then (some page, []) else (none, [n])

/-- The part of a character list after its first `'='` (if any). -/
def splitAtEq : List Char → Option (List Char)
  | [] => none
  | c :: t => if c = '=' then some t else splitAtEq t

/-- `card.find("td", class_="name").find("a").get("href", "").split("=", 2)[-1]`:
the last piece after splitting at the first two `'='` characters. -/
def multiverseIdOfRow (r : ChecklistRow) : List Char :=
  match splitAtEq r.href with
  | none => r.href
  | some r1 =>
    match splitAtEq r1 with
    | none => r1
    | some r2 => r2

/-- Fold one page's rows into the accumulated dict
(`card_number_to_multiverse_id[row_card_number] = row_card_multiverse_id`). -/
def rowFold (m : List (List Char × List Char)) (rows : List ChecklistRow) :
    List (List Char × List Char) :=
  rows.foldl (fun m r => dictInsert m r.number (multiverseIdOfRow r)) m

/-- `is_last_page`: `"underline" in last.get("style", "") or ">" not in last.text`. -/
def isLastPageLink (l : PagingLink) : Bool :=
  containsSub (chars "underline") l.style || !containsSub (chars ">") l.text

/-- Result of one run of the mapping function: the returned dict or the
exception that escaped, the page numbers for which a fetch was attempted, and
the page numbers whose download logged a warning. -/
structure RunResult where
  result : Except PyError (List (List Char × List Char))
  fetched : List Nat
  warnings : List Nat

/-- The `for page_number in range(0, 10)` loop of
`get_collector_number_to_multiverse_id_mapping`, over the list of remaining
page numbers.  Falling off the end of the list returns the accumulated dict. -/
def mappingLoop (net : Nat → DownloadOutcome) :
    List Nat → List (List Char × List Char) → RunResult
  | [], acc => ⟨.ok acc, [], []⟩
  | n :: rest, acc =>
    match downloadChecklist net n with
    | (none, w) => ⟨.error .attrError, [n], w⟩
    | (some page, w) =>
      match page.table with
      | none => ⟨.ok acc, [n], w⟩
      | some rows =>
        let acc2 := rowFold acc rows
        match page.pagingControls with
        | none => ⟨.error .attrError, [n], w⟩
        | some links =>
          match links.getLast? with
          | none => ⟨.ok acc2, [n], w⟩
          | some l =>
            if isLastPageLink l then ⟨.ok acc2, [n], w⟩
            else
              let r := mappingLoop net rest acc2
              ⟨r.result, n :: r.fetched, w ++ r.warnings⟩

/-- `GathererProvider.get_collector_number_to_multiverse_id_mapping`. -/
def get_collector_number_to_multiverse_id_mapping (net : Nat → DownloadOutcome) :
    RunResult :=
  mappingLoop net (List.range 10) []

/-!
Model of `mtgjson4/mtg_storage.py`: `remove_null_fields` and
`write_to_compiled_file`.  JSON-serializable Python values are modelled by
`JValue`; `truthy` is Python truthiness on them.
-/

/-- A JSON-serializable Python value. -/
inductive JValue where
  | null : JValue
  | bool (b : Bool) : JValue
  | num (n : Int) : JValue
  | str (s : String) : JValue
  | arr (items : List JValue) : JValue
  | obj (fields : List (String × JValue)) : JValue

/-- Python truthiness: `None`, `False`, `0`, `""`, `[]` and the empty dict are
falsy. -/
def truthy : JValue → Bool
  | .null => false
  | .bool b => b
  | .num n => n != 0
  | .str s => s != ""
  | .arr items => !items.isEmpty
  | .obj fields => !fields.isEmpty

mutual

/-- `remove_null_fields`: recursively rebuild lists and dicts, keeping only
members whose recursively-cleaned value is truthy; other values unchanged. -/
def remove_null_fields : JValue → JValue
  | .arr items => .arr (removeNullList items)
  | .obj fields => .obj (removeNullPairs fields)
  | v => v

/-- The list comprehension `[v for v in (remove_null_fields(v) for v in l) if v]`. -/
def removeNullList : List JValue → List JValue
  | [] => []
  | v :: t =>
    (let w := remove_null_fields v; if truthy w then [w] else []) ++ removeNullList t

/-- The dict comprehension
`{k: v for k, v in ((k, remove_null_fields(v)) for k, v in d.items()) if v}`. -/
def removeNullPairs : List (String × JValue) → List (String × JValue)
  | [] => []
  | (k, v) :: t =>
    (let w := remove_null_fields v; if truthy w then [(k, w)] else []) ++ removeNullPairs t

end

/-- The value `write_to_compiled_file` passes to `json.dump`: the contents
with `remove_null_fields` applied. -/
def write_to_compiled_file (file_contents : JValue) : JValue :=
  remove_null_fields file_contents

mutual

/-- No member anywhere inside the value is falsy. -/
def noFalsyV : JValue → Bool
  | .arr items => noFalsyArr items
  | .obj fields => noFalsyObj fields
  | _ => true

/-- Every element is truthy and recursively free of falsy members. -/
def noFalsyArr : List JValue → Bool
  | [] => true
  | v :: t => truthy v && noFalsyV v && noFalsyArr t

/-- Every field value is truthy and recursively free of falsy members. -/
def noFalsyObj : List (String × JValue) → Bool
  | [] => true
  | (_, v) :: t => truthy v && noFalsyV v && noFalsyObj t

end

/-- The rows contributed by page `n` to the mapping: the checklist-table rows
of a successfully downloaded page, else nothing. -/
def pageRows (net : Nat → DownloadOutcome) (n : Nat) : List ChecklistRow :=
  match (downloadChecklist net n).1 with
  | none => []
  | some page => page.table.getD []

/-- Folding one page's rows into the accumulated dict. -/
def pageAcc (net : Nat → DownloadOutcome) (m : List (List Char × List Char))
    (n : Nat) : List (List Char × List Char) :=
  rowFold m (pageRows net n)

/-- The loop continues past page `n`: the download succeeded with status 200,
the checklist table is present, the pagination div is present with at least
one anchor, and the final anchor is not marked last. -/
def continuesAt (net : Nat → DownloadOutcome) (n : Nat) : Bool :=
  match net n with
  | .exc => false
  | .resp status page =>
    status = 200 &&
      (match page.table with
       | none => false
       | some _ =>
         match page.pagingControls with
         | none => false
         | some links =>
           match links.getLast? with
           | none => false
           | some l => !isLastPageLink l)

/-- The page numbers fetched when starting at page `n` with `k` loop
iterations remaining: page `n` is fetched, and the next page only while
`continuesAt` holds. -/
def fetchSeq (net : Nat → DownloadOutcome) : Nat → Nat → List Nat
  | _, 0 => []
  | n, k + 1 => n :: (if continuesAt net n then fetchSeq net (n + 1) k else [])

/-- Every page download of `net` yields a 200 response whose checklist table
and pagination div are both present. -/
def goodNet (net : Nat → DownloadOutcome) : Prop :=
  ∀ n, ∃ page, net n = .resp 200 page ∧
    page.table.isSome = true ∧ page.pagingControls.isSome = true

/-- Every page download of `net` yields a 200 response, and its pagination
div is present whenever its checklist table is present.  A page without a
checklist table is allowed (it is a clean terminal page in the source); a
page with a table but no pagination div is excluded because the source
crashes on it (`.find_all("a")` on `None`). -/
def okNet (net : Nat → DownloadOutcome) : Prop :=
  ∀ n, ∃ page, net n = .resp 200 page ∧
    (page.table.isSome = true → page.pagingControls.isSome = true)

/-!
Concrete fixture pages used to evaluate the models at specific inputs.
-/

/-- A detail-page column with name, types and a rules text that carries
reminder text in parentheses. -/
def c8DemoCol : List RowDiv :=
  [⟨chars "Card Name:", ⟨chars "Demo", [], []⟩⟩,
   ⟨chars "Types:", ⟨chars "Instant", [], []⟩⟩,
   ⟨chars "Card Text:", ⟨[], [], [[Inline.text (chars "Flying (Reminder)")]]⟩⟩]

/-- A detail-page column missing the required `Card Name` label. -/
def c2BadCol : List RowDiv :=
  [⟨chars "Types:", ⟨chars "Creature", [], []⟩⟩]

/-- A detail-page column with a `Card Text` label whose only content box
strips to the empty string, and no `Flavor Text` label at all. -/
def c6DemoCol : List RowDiv :=
  [⟨chars "Card Name:", ⟨chars "Eager", [], []⟩⟩,
   ⟨chars "Types:", ⟨chars "Creature", [], []⟩⟩,
   ⟨chars "Card Text:", ⟨[], [], [[Inline.text (chars "  ")]]⟩⟩]

/-- A checklist page with one row and a forward (`>`) pagination anchor:
fetching never reaches a terminal condition on it. -/
def contPage : ChecklistPage :=
  ⟨some [⟨chars "1", chars "multiverseid=123"⟩], some [⟨chars "", chars " >"⟩]⟩

/-- A checklist page with no checklist table at all: a clean terminal page
(`if not checklist_tables: break`). -/
def noTablePage : ChecklistPage :=
  ⟨none, none⟩

/-- A checklist page with a table but no `div.pagingcontrols`: the source
raises `AttributeError` on it. -/
def crashPage : ChecklistPage :=
  ⟨some [⟨chars "1", chars "a=1"⟩], none⟩

/-- A network whose page 0 continues and whose page 1 has no checklist
table, so the run stops cleanly at page 1. -/
def mixedNet : Nat → DownloadOutcome := fun n =>
  match n with
  | 0 => .resp 200 contPage
  | _ + 1 => .resp 200 noTablePage

/-- A terminal checklist page whose two rows share the collector number `1`,
with the final pagination anchor marked current (underlined). -/
def dupPage : ChecklistPage :=
  ⟨some [⟨chars "1", chars "a=b=100"⟩, ⟨chars "1", chars "c=200"⟩],
   some [⟨chars "text-decoration:underline", chars "3"⟩]⟩

/-!
Lemmas: substring preservation through the masking pipeline of
`_parse_column` (claim C4), and supporting facts.
-/

theorem startsWithL_append (p r : List Char) : startsWithL p (p ++ r) = true := by
  induction p with
  | nil => rfl
  | cons a as ih => simp [startsWithL, ih]

theorem substring_cons {p l : List Char} (c : Char) (h : SubstringOf p l) :
    SubstringOf p (c :: l) := by
  obtain ⟨u, v, huv⟩ := h
  exact ⟨c :: u, v, by rw [List.cons_append, List.cons_append, huv]⟩

theorem substring_append_left {p l : List Char} (w : List Char) (h : SubstringOf p l) :
    SubstringOf p (w ++ l) := by
  obtain ⟨u, v, huv⟩ := h
  exact ⟨w ++ u, v, by rw [List.append_assoc, List.append_assoc, ← List.append_assoc u, huv]⟩

theorem substring_tail {p : List Char} {c : Char} {t : List Char}
    (h : SubstringOf p (c :: t)) (hnp : startsWithL p (c :: t) = false) :
    SubstringOf p t := by
  obtain ⟨u, v, huv⟩ := h
  cases u with
  | nil =>
    rw [List.nil_append] at huv
    rw [← huv, startsWithL_append] at hnp
    cases hnp
  | cons a u' =>
    injection huv with h1 h2
    exact ⟨u', v, h2⟩

theorem pyReplaceFuel_emits (old new : List Char) (hne : old ≠ []) :
    ∀ f s, s.length ≤ f → SubstringOf old s →
      SubstringOf new (pyReplaceFuel old new f s) := by
  intro f
  induction f with
  | zero =>
    intro s hs h
    obtain ⟨u, v, huv⟩ := h
    have : s = [] := List.length_eq_zero.mp (Nat.le_zero.mp hs)
    subst this
    have := List.append_eq_nil.mp huv
    exact absurd (List.append_eq_nil.mp this.1).2 hne
  | succ f ih =>
    intro s hs h
    cases s with
    | nil =>
      obtain ⟨u, v, huv⟩ := h
      have := List.append_eq_nil.mp huv
      exact absurd (List.append_eq_nil.mp this.1).2 hne
    | cons c t =>
      by_cases hpre : startsWithL old (c :: t) = true
      · show SubstringOf new (if startsWithL old (c :: t) then _ else _)
        rw [if_pos hpre]
        exact ⟨[], pyReplaceFuel old new f (t.drop (old.length - 1)), by rw [List.nil_append]⟩
      · show SubstringOf new (if startsWithL old (c :: t) then _ else _)
        rw [if_neg hpre]
        have ht : SubstringOf old t :=
          substring_tail h (Bool.not_eq_true _ ▸ (eq_false_of_ne_true hpre))
        exact substring_cons c (ih t (Nat.lt_succ_iff.mp hs) ht)

theorem pyReplace_emits (old new s : List Char) (hne : old ≠ [])
    (h : SubstringOf old s) : SubstringOf new (pyReplace old new s) := by
  cases old with
  | nil => exact absurd rfl hne
  | cons o os =>
    exact pyReplaceFuel_emits (o :: os) new hne s.length s (Nat.le_refl _) h

theorem insertBreaks_head (c : Char) (l : List Char) :
    ∃ r, insertBreaks (c :: l) = c :: r := by
  cases l with
  | nil => exact ⟨[], rfl⟩
  | cons d ds =>
    exact ⟨(if breakPair c d then ['\n'] else []) ++ insertBreaks (d :: ds), rfl⟩

theorem insertBreaks_keeps_mask {s : List Char}
    (h : SubstringOf (chars "(CN)") s) :
    SubstringOf (chars "(CN)") (insertBreaks s) := by
  obtain ⟨u, v, huv⟩ := h
  subst huv
  induction u with
  | nil =>
    obtain ⟨r, hr⟩ := insertBreaks_head ')' v
    have e : insertBreaks ([] ++ chars "(CN)" ++ v) =
        '(' :: 'C' :: 'N' :: insertBreaks (')' :: v) := rfl
    rw [e, hr]
    exact ⟨[], r, rfl⟩
  | cons a u' ih =>
    rcases hq : u' ++ chars "(CN)" ++ v with _ | ⟨x, xs⟩
    · exfalso
      have := congrArg List.length hq
      simp [chars] at this
    · have e : insertBreaks ((a :: u') ++ chars "(CN)" ++ v) =
          a :: ((if breakPair a x then ['\n'] else []) ++ insertBreaks (x :: xs)) := by
        show insertBreaks (a :: (u' ++ chars "(CN)" ++ v)) = _
        rw [hq]
        rfl
      rw [e]
      rw [hq] at ih
      exact substring_cons a (substring_append_left _ ih)

/-!
Characterization of `parse_column`, and "no paragraphs yields None" lemmas.
-/

theorem parse_column_noName (table : List (List Char × List Char)) (col : List RowDiv)
    (sp : Bool) (hN : dictGet (labelMap col) (chars "Card Name") = none) :
    parse_column table col sp = .error .keyError := by
  unfold parse_column
  rw [hN]

theorem parse_column_noTypes (table : List (List Char × List Char)) (col : List RowDiv)
    (sp : Bool) (nameDiv : ValueDiv)
    (hN : dictGet (labelMap col) (chars "Card Name") = some nameDiv)
    (hT : dictGet (labelMap col) (chars "Types") = none) :
    parse_column table col sp = .error .keyError := by
  unfold parse_column
  rw [hN, hT]

theorem parse_column_eq (table : List (List Char × List Char)) (col : List RowDiv)
    (sp : Bool) (nameDiv typesDiv : ValueDiv)
    (hN : dictGet (labelMap col) (chars "Card Name") = some nameDiv)
    (hT : dictGet (labelMap col) (chars "Types") = some typesDiv) :
    parse_column table col sp = .ok
      { card_name := nameDiv.plainText
        original_types := typesDiv.plainText
        original_text := finalizeText
          (if sp then (rulesTextRaw table col nameDiv.plainText).map strip_parentheses_from_text
           else rulesTextRaw table col nameDiv.plainText)
        flavor_text := orNone (pyStrip (intercalateNl
          (match dictGet (labelMap col) (chars "Flavor Text") with
           | none => []
           | some d => d.flavorBoxes))) } := by
  unfold parse_column
  rw [hN, hT]

theorem maskLineBreaks_nil (name : List Char) : maskLineBreaks name [] = [] := by
  cases name with
  | nil => rfl
  | cons a as => rfl

theorem pyStrip_of_spaces (l : List Char) (h : ∀ c ∈ l, isPySpace c = true) :
    pyStrip l = [] := by
  unfold pyStrip
  rw [List.dropWhile_eq_nil_iff.mpr h]
  rfl

theorem intercalateNl_all_nl : ∀ ls : List (List Char), (∀ x ∈ ls, x = []) →
    ∀ c ∈ intercalateNl ls, c = '\n' := by
  intro ls
  induction ls with
  | nil => intro _ c hc; cases hc
  | cons l rest ih =>
    intro h c hc
    cases rest with
    | nil =>
      rw [show intercalateNl [l] = l from rfl, h l (by simp)] at hc
      cases hc
    | cons r rs =>
      rw [show intercalateNl (l :: r :: rs) = l ++ '\n' :: intercalateNl (r :: rs) from rfl,
        h l (by simp)] at hc
      rcases List.mem_cons.mp hc with hc | hc
      · exact hc
      · exact ih (fun x hx => h x (List.mem_cons_of_mem _ hx)) c hc

theorem pyStrip_intercalate_nil (ls : List (List Char)) (h : ∀ x ∈ ls, x = []) :
    pyStrip (intercalateNl ls) = [] :=
  pyStrip_of_spaces _ (fun c hc => by rw [intercalateNl_all_nl ls h c hc]; rfl)

theorem rulesLines_all_nil (table : List (List Char × List Char)) (name : List Char)
    (d : ValueDiv) (h : ∀ b ∈ d.textBoxes, pyStrip (boxText table b) = []) :
    ∀ x ∈ rulesLinesOfDiv table name d, x = [] := by
  intro x hx
  rw [rulesLinesOfDiv, List.mem_flatMap] at hx
  obtain ⟨box, hbox, hx⟩ := hx
  rw [h box hbox, maskLineBreaks_nil] at hx
  rcases List.mem_singleton.mp hx with rfl
  rfl

/-!
Claim theorems C4 and C6.
-/

/-- Claim C4: for every card name and every rules-text fragment, the
line-break heuristic of `_parse_column` (mask the card name as `"(CN)"`, run
the break-inserting regex, restore the name) never destroys an occurrence of
the card's own name: if the name occurs in the input fragment, it still
occurs intact in the output of `maskLineBreaks`. -/
theorem c4_name_survives_breaks (name text : List Char)
    (h : SubstringOf name text) :
    SubstringOf name (maskLineBreaks name text) := by
  cases name with
  | nil => exact ⟨[], maskLineBreaks [] text, by rw [List.nil_append, List.nil_append]⟩
  | cons a as =>
    have h1 : SubstringOf (chars "(CN)") (pyReplace (a :: as) (chars "(CN)") text) :=
      pyReplace_emits (a :: as) (chars "(CN)") text (by simp) h
    have h2 := insertBreaks_keeps_mask h1
    have h3 : SubstringOf (a :: as)
        (pyReplace (chars "(CN)") (a :: as)
          (insertBreaks (pyReplace (a :: as) (chars "(CN)") text))) :=
      pyReplace_emits (chars "(CN)") (a :: as) _ (by decide) h2
    exact h3

/-- Witness for C4 at the spec's own example: name `"Shock"` occurs in
`"ShockDeals2damage"` and survives the heuristic intact. -/
theorem c4_witness :
    SubstringOf (chars "Shock") (maskLineBreaks (chars "Shock") (chars "ShockDeals2damage")) :=
  c4_name_survives_breaks (chars "Shock") (chars "ShockDeals2damage")
    ⟨[], chars "Deals2damage", rfl⟩

/-- Claim C6: a produced card has `original_text = none` (never the empty
string) both when the `Card Text` label is absent and when it is present with
content boxes that are all empty after stripping, and likewise
`flavor_text = none` when the `Flavor Text` label is absent or its content
boxes are all empty. -/
theorem c6_none_for_missing_or_empty (table : List (List Char × List Char))
    (col : List RowDiv) (sp : Bool) (card : GathererCard)
    (h : parse_column table col sp = .ok card) :
    (dictGet (labelMap col) (chars "Card Text") = none → card.original_text = none) ∧
    (∀ d, dictGet (labelMap col) (chars "Card Text") = some d →
      (∀ b ∈ d.textBoxes, pyStrip (boxText table b) = []) →
      card.original_text = none) ∧
    (dictGet (labelMap col) (chars "Flavor Text") = none → card.flavor_text = none) ∧
    (∀ d, dictGet (labelMap col) (chars "Flavor Text") = some d →
      (∀ s ∈ d.flavorBoxes, s = []) → card.flavor_text = none) := by
  rcases hN : dictGet (labelMap col) (chars "Card Name") with _ | nameDiv
  · rw [parse_column_noName table col sp hN] at h
    exact Except.noConfusion h
  rcases hT : dictGet (labelMap col) (chars "Types") with _ | typesDiv
  · rw [parse_column_noTypes table col sp nameDiv hN hT] at h
    exact Except.noConfusion h
  rw [parse_column_eq table col sp nameDiv typesDiv hN hT] at h
  injection h with h
  subst h
  refine ⟨?_, ?_, ?_, ?_⟩
  · intro hct
    have hraw : rulesTextRaw table col nameDiv.plainText = none := by
      unfold rulesTextRaw
      rw [hct]
      rfl
    show finalizeText _ = none
    rw [hraw]
    cases sp <;> rfl
  · intro d hd hboxes
    have hraw : rulesTextRaw table col nameDiv.plainText = none := by
      unfold rulesTextRaw
      rw [hd, pyStrip_intercalate_nil _ (rulesLines_all_nil table nameDiv.plainText d hboxes)]
      rfl
    show finalizeText _ = none
    rw [hraw]
    cases sp <;> rfl
  · intro hfl
    show orNone _ = none
    rw [hfl]
    rfl
  · intro d hd hboxes
    show orNone _ = none
    rw [hd, pyStrip_intercalate_nil _ hboxes]
    rfl

/-- Witness for C6: a column whose only `Card Text` box strips to the empty
string and which has no `Flavor Text` label yields a card with
`original_text = none` and `flavor_text = none`. -/
theorem c6_witness :
    (parse_column [] c6DemoCol false =
      .ok ⟨chars "Eager", chars "Creature", none, none⟩) ∧
    (⟨chars "Eager", chars "Creature", none, none⟩ : GathererCard).original_text = none ∧
    (⟨chars "Eager", chars "Creature", none, none⟩ : GathererCard).flavor_text = none := by
  refine ⟨rfl, ?_, ?_⟩
  · exact (c6_none_for_missing_or_empty [] c6DemoCol false _ rfl).2.1
      ⟨[], [], [[Inline.text (chars "  ")]]⟩ rfl (by intro b hb; rcases List.mem_singleton.mp hb with rfl; rfl)
  · exact (c6_none_for_missing_or_empty [] c6DemoCol false _ rfl).2.2.1 rfl

/-!
Claim theorems C2, C8 and C5.
-/

/-- Claim C2, amended: a card block missing a required label (`Card Name` or
`Types`) raises `KeyError`, which aborts `parse_cards` for the whole page (no
blocks at all are returned), rather than being skipped; a missing optional
label (`Card Text`, `Flavor Text`) does yield `none` for that field. -/
theorem c2_required_aborts_page :
    (∀ (table : List (List Char × List Char)) (cols : List (List RowDiv)) (sp : Bool)
      (col : List RowDiv), col ∈ cols →
      (dictGet (labelMap col) (chars "Card Name") = none ∨
        dictGet (labelMap col) (chars "Types") = none) →
      ∃ e, parse_cards table cols sp = .error e) ∧
    (∀ (table : List (List Char × List Char)) (col : List RowDiv) (sp : Bool)
      (card : GathererCard), parse_column table col sp = .ok card →
      (dictGet (labelMap col) (chars "Card Text") = none → card.original_text = none) ∧
      (dictGet (labelMap col) (chars "Flavor Text") = none → card.flavor_text = none)) := by
  constructor
  · intro table cols sp col hmem hmiss
    induction cols with
    | nil => cases hmem
    | cons c rest ih =>
      rcases List.mem_cons.mp hmem with rfl | hmem'
      · have he : parse_column table col sp = .error .keyError := by
          rcases hmiss with hN | hT
          · exact parse_column_noName table col sp hN
          · rcases hh : dictGet (labelMap col) (chars "Card Name") with _ | nameDiv
            · exact parse_column_noName table col sp hh
            · exact parse_column_noTypes table col sp nameDiv hh hT
        exact ⟨.keyError, by rw [parse_cards, he]⟩
      · obtain ⟨e, he⟩ := ih hmem'
        rcases hc : parse_column table c sp with ec | cardc
        · exact ⟨ec, by rw [parse_cards, hc]⟩
        · exact ⟨e, by rw [parse_cards, hc, he]⟩
  · intro table col sp card h
    rcases hN : dictGet (labelMap col) (chars "Card Name") with _ | nameDiv
    · rw [parse_column_noName table col sp hN] at h
      exact Except.noConfusion h
    rcases hT : dictGet (labelMap col) (chars "Types") with _ | typesDiv
    · rw [parse_column_noTypes table col sp nameDiv hN hT] at h
      exact Except.noConfusion h
    rw [parse_column_eq table col sp nameDiv typesDiv hN hT] at h
    injection h with h
    subst h
    constructor
    · intro hct
      have hraw : rulesTextRaw table col nameDiv.plainText = none := by
        unfold rulesTextRaw
        rw [hct]
        rfl
      show finalizeText _ = none
      rw [hraw]
      cases sp <;> rfl
    · intro hfl
      show orNone _ = none
      rw [hfl]
      rfl

/-- Counterexample for C2 as stated: a page whose first block lacks
`Card Name` while the second block is well-formed produces a `KeyError` for
the whole page; `parse_cards` does not return the parsed facts of the
remaining block. -/
theorem c2_counterexample :
    parse_cards [] [c2BadCol, c8DemoCol] false = .error .keyError := rfl

/-- Witness for C2 (amended): at the concrete bad page the error is raised,
and a well-formed column with no `Flavor Text` label gets `none`. -/
theorem c2_witness :
    (∃ e, parse_cards [] [c2BadCol, c8DemoCol] false = .error e) ∧
    (⟨chars "Eager", chars "Creature", none, none⟩ : GathererCard).flavor_text = none :=
  ⟨c2_required_aborts_page.1 [] [c2BadCol, c8DemoCol] false c2BadCol
      (List.mem_cons_self _ _) (Or.inl rfl),
    (c2_required_aborts_page.2 [] c6DemoCol false _ rfl).2 rfl⟩

/-- Claim C8: rules text is post-processed with
`strip_parentheses_from_text` exactly when the parse was invoked with the
strip flag, and `get_cards` sets that flag exactly for set codes in
`SETS_TO_REMOVE_PARENTHESES` (that is, exactly for `"10E"`); without the
flag the raw rules text is kept (up to the tag-strip applied to both). -/
theorem c8_parentheses_per_set (table : List (List Char × List Char)) (col : List RowDiv)
    (sc : List Char) (page : List (List RowDiv)) (nameDiv typesDiv : ValueDiv)
    (cardT cardF : GathererCard)
    (hN : dictGet (labelMap col) (chars "Card Name") = some nameDiv)
    (hT : dictGet (labelMap col) (chars "Types") = some typesDiv)
    (hsp : parse_column table col true = .ok cardT)
    (hns : parse_column table col false = .ok cardF) :
    cardT.original_text =
      finalizeText ((rulesTextRaw table col nameDiv.plainText).map strip_parentheses_from_text) ∧
    cardF.original_text = finalizeText (rulesTextRaw table col nameDiv.plainText) ∧
    (SETS_TO_REMOVE_PARENTHESES.contains sc = true ↔ sc = chars "10E") ∧
    get_cards table (some page) sc =
      parse_cards table page (SETS_TO_REMOVE_PARENTHESES.contains sc) := by
  rw [parse_column_eq table col true nameDiv typesDiv hN hT] at hsp
  rw [parse_column_eq table col false nameDiv typesDiv hN hT] at hns
  injection hsp with hsp
  injection hns with hns
  subst hsp
  subst hns
  refine ⟨rfl, rfl, ?_, rfl⟩
  show ([chars "10E"].contains sc = true ↔ sc = chars "10E")
  rw [show ([chars "10E"].contains sc) = List.elem sc [chars "10E"] from rfl]
  rw [List.elem_iff]
  exact List.mem_singleton

/-- Witness for C8 at a concrete column carrying reminder text: with the
flag (set `"10E"`) the parenthetical is removed, without it the text is kept. -/
theorem c8_witness :
    (⟨chars "Demo", chars "Instant", some (chars "Flying"), none⟩ : GathererCard).original_text =
      finalizeText ((rulesTextRaw [] c8DemoCol (chars "Demo")).map strip_parentheses_from_text) ∧
    (⟨chars "Demo", chars "Instant", some (chars "Flying (Reminder)"), none⟩ :
      GathererCard).original_text =
      finalizeText (rulesTextRaw [] c8DemoCol (chars "Demo")) ∧
    (SETS_TO_REMOVE_PARENTHESES.contains (chars "10E") = true ↔ chars "10E" = chars "10E") ∧
    get_cards [] (some []) (chars "10E") =
      parse_cards [] [] (SETS_TO_REMOVE_PARENTHESES.contains (chars "10E")) :=
  c8_parentheses_per_set [] c8DemoCol (chars "10E") [] ⟨chars "Demo", [], []⟩
    ⟨chars "Instant", [], []⟩ _ _ rfl rfl rfl rfl

/-- Claim C5: during symbol substitution an image whose alt text is a key of
the symbol table is replaced by the bracketed table code, and an image whose
alt text is absent from the table is replaced by the bracketed raw alt text
unchanged. -/
theorem c5_symbol_substitution (table : List (List Char × List Char))
    (pre post : List Inline) (alt : List Char) :
    (∀ code, dictGet table alt = some code →
      boxText table (pre ++ Inline.img alt :: post) =
        boxText table pre ++ ('\x7b' :: (code ++ ['\x7d'])) ++ boxText table post) ∧
    (dictGet table alt = none →
      boxText table (pre ++ Inline.img alt :: post) =
        boxText table pre ++ ('\x7b' :: (alt ++ ['\x7d'])) ++ boxText table post) := by
  constructor
  · intro code hc
    simp [boxText, replace_symbols, replaceSymbolInline, inlineText, hc]
  · intro hc
    simp [boxText, replace_symbols, replaceSymbolInline, inlineText, hc]

/-- Witness for C5: alt `"White"` present in the table becomes the bracketed
code `W`; alt `"Zed"` absent from the table passes through bracketed. -/
theorem c5_witness :
    (boxText [(chars "White", chars "W")] ([Inline.text (chars "Pay ")] ++ Inline.img (chars "White") :: []) =
      boxText [(chars "White", chars "W")] [Inline.text (chars "Pay ")] ++
        ('\x7b' :: (chars "W" ++ ['\x7d'])) ++ boxText [(chars "White", chars "W")] []) ∧
    (boxText [] ([] ++ Inline.img (chars "Zed") :: []) =
      boxText [] [] ++ ('\x7b' :: (chars "Zed" ++ ['\x7d'])) ++ boxText [] []) :=
  ⟨(c5_symbol_substitution [(chars "White", chars "W")] [Inline.text (chars "Pay ")] []
      (chars "White")).1 (chars "W") rfl,
    (c5_symbol_substitution [] [] [] (chars "Zed")).2 rfl⟩

/-!
Lemmas for the pagination loop under well-formed responses.
-/

theorem mappingLoop_ok (net : Nat → DownloadOutcome) (hok : okNet net) :
    ∀ k n acc, mappingLoop net (List.range' n k) acc =
      ⟨.ok (List.foldl (pageAcc net) acc (fetchSeq net n k)), fetchSeq net n k, []⟩ := by
  intro k
  induction k with
  | zero => intro n acc; rfl
  | succ k ih =>
    intro n acc
    obtain ⟨page, hnet, himp⟩ := hok n
    have hdl : downloadChecklist net n = (some page, []) := by
      unfold downloadChecklist
      rw [hnet]
      rfl
    rw [List.range'_succ n k 1]
    rcases htab' : page.table with _ | rows
    · have hcont : continuesAt net n = false := by
        simp [continuesAt, hnet, htab']
      have hpr : pageRows net n = [] := by
        unfold pageRows
        rw [hdl]
        show page.table.getD [] = []
        rw [htab']
        rfl
      simp only [mappingLoop, hdl, htab', fetchSeq, hcont, if_false]
      simp [pageAcc, hpr, rowFold]
    · have hctl : page.pagingControls.isSome = true := himp (by rw [htab']; rfl)
      rcases hctl' : page.pagingControls with _ | links
      · rw [hctl'] at hctl; cases hctl
      have hpr : pageRows net n = rows := by
        unfold pageRows
        rw [hdl]
        show page.table.getD [] = rows
        rw [htab']
        rfl
      rcases hlast : links.getLast? with _ | l
      · have hcont : continuesAt net n = false := by
          simp [continuesAt, hnet, htab', hctl', hlast]
        simp only [mappingLoop, hdl, htab', hctl', hlast, fetchSeq, hcont, if_false]
        simp [pageAcc, hpr]
      · cases hip : isLastPageLink l with
        | true =>
          have hcont : continuesAt net n = false := by
            simp [continuesAt, hnet, htab', hctl', hlast, hip]
          simp only [mappingLoop, hdl, htab', hctl', hlast, hip, fetchSeq, hcont, if_false]
          simp [pageAcc, hpr]
        | false =>
          have hcont : continuesAt net n = true := by
            simp [continuesAt, hnet, htab', hctl', hlast, hip]
          simp only [mappingLoop, hdl, htab', hctl', hlast, hip, fetchSeq, hcont, if_true]
          rw [ih (n + 1) (rowFold acc rows)]
          simp [pageAcc, hpr]

theorem mappingLoop_good (net : Nat → DownloadOutcome) (hgood : goodNet net) :
    ∀ k n acc, mappingLoop net (List.range' n k) acc =
      ⟨.ok (List.foldl (pageAcc net) acc (fetchSeq net n k)), fetchSeq net n k, []⟩ :=
  mappingLoop_ok net (fun n =>
    match hgood n with
    | ⟨page, hnet, _, hctl⟩ => ⟨page, hnet, fun _ => hctl⟩)

theorem fetchSeq_mem_lt (net : Nat → DownloadOutcome) :
    ∀ k n m, m ∈ fetchSeq net n k → n ≤ m ∧ m < n + k := by
  intro k
  induction k with
  | zero => intro n m h; cases h
  | succ k ih =>
    intro n m h
    simp only [fetchSeq] at h
    rcases List.mem_cons.mp h with rfl | h'
    · exact ⟨Nat.le_refl _, by omega⟩
    · by_cases hc : continuesAt net n = true
      · rw [if_pos hc] at h'
        obtain ⟨h1, h2⟩ := ih (n + 1) m h'
        exact ⟨by omega, by omega⟩
      · rw [if_neg hc] at h'
        cases h'

theorem fetchSeq_self_mem (net : Nat → DownloadOutcome) (n k : Nat) (h : 0 < k) :
    n ∈ fetchSeq net n k := by
  cases k with
  | zero => omega
  | succ k => exact List.mem_cons_self _ _

theorem fetchSeq_succ_mem (net : Nat → DownloadOutcome) :
    ∀ k n m, n ≤ m → m + 1 ∈ fetchSeq net n k →
      m ∈ fetchSeq net n k ∧ continuesAt net m = true := by
  intro k
  induction k with
  | zero => intro n m _ h; cases h
  | succ k ih =>
    intro n m hnm h
    simp only [fetchSeq] at h ⊢
    rcases List.mem_cons.mp h with heq | h'
    · exact absurd heq (by omega)
    · by_cases hc : continuesAt net n = true
      · rw [if_pos hc] at h'
        rcases Nat.eq_or_lt_of_le hnm with rfl | hlt
        · exact ⟨List.mem_cons_self _ _, hc⟩
        · obtain ⟨hm, hcm⟩ := ih (n + 1) m (by omega) h'
          refine ⟨List.mem_cons_of_mem _ ?_, hcm⟩
          rw [if_pos hc]
          exact hm
      · rw [if_neg hc] at h'
        cases h'

theorem fetchSeq_mem_succ (net : Nat → DownloadOutcome) :
    ∀ k n m, m ∈ fetchSeq net n k → continuesAt net m = true → m + 1 < n + k →
      m + 1 ∈ fetchSeq net n k := by
  intro k
  induction k with
  | zero => intro n m h; cases h
  | succ k ih =>
    intro n m h hc hlt
    simp only [fetchSeq] at h ⊢
    rcases List.mem_cons.mp h with rfl | h'
    · rw [if_pos hc]
      exact List.mem_cons_of_mem _ (fetchSeq_self_mem net (m + 1) k (by omega))
    · by_cases hcn : continuesAt net n = true
      · rw [if_pos hcn] at h' ⊢
        exact List.mem_cons_of_mem _ (ih (n + 1) m h' hc (by omega))
      · rw [if_neg hcn] at h'
        cases h'

theorem rowFold_append (m : List (List Char × List Char)) (rows : List ChecklistRow)
    (r : ChecklistRow) :
    rowFold m (rows ++ [r]) = dictInsert (rowFold m rows) r.number (multiverseIdOfRow r) := by
  unfold rowFold
  rw [List.foldl_append]
  rfl

theorem dictGet_dictInsert {β : Type} (m : List (List Char × β)) (k k' : List Char) (v : β) :
    dictGet (dictInsert m k v) k' = if k = k' then some v else dictGet m k' := by
  induction m with
  | nil => rfl
  | cons p t ih =>
    obtain ⟨a, b⟩ := p
    by_cases hak : a = k
    · subst hak
      by_cases h2 : a = k' <;> simp [dictInsert, dictGet, h2]
    · by_cases h2 : a = k'
      · subst h2
        have : ¬ k = a := fun hk => hak hk.symm
        simp [dictInsert, dictGet, hak, this]
      · simp [dictInsert, dictGet, hak, h2, ih]

theorem foldl_pageAcc (net : Nat → DownloadOutcome) :
    ∀ (ns : List Nat) (m : List (List Char × List Char)),
      List.foldl (pageAcc net) m ns = rowFold m (ns.flatMap (pageRows net)) := by
  intro ns
  induction ns with
  | nil => intro m; rfl
  | cons n rest ih =>
    intro m
    have hsplit : rowFold m (pageRows net n ++ rest.flatMap (pageRows net)) =
        rowFold (rowFold m (pageRows net n)) (rest.flatMap (pageRows net)) := by
      unfold rowFold
      rw [List.foldl_append]
    simp only [List.flatMap_cons, hsplit]
    exact ih (rowFold m (pageRows net n))

/-!
Claim theorems C1, C3 and C7.
-/

/-- Claim C1 (code bug in the source): when the checklist download for a page
fails, `download` does log a warning and return `None`, but
`get_collector_number_to_multiverse_id_mapping` then dereferences
`response.text` on `None` and raises `AttributeError` instead of returning
the identifier map. -/
theorem c1_crash_on_failed_download :
    (get_collector_number_to_multiverse_id_mapping (fun _ => .exc)).result =
      .error .attrError ∧
    (get_collector_number_to_multiverse_id_mapping (fun _ => .exc)).warnings = [0] ∧
    downloadChecklist (fun _ => .exc) 0 = (none, [0]) :=
  ⟨rfl, rfl, rfl⟩

/-- Claim C3, amended: within a hard cap of ten pages (`range(0, 10)`) the
loop fetches pages `0, 1, 2, …` and stops exactly at the first page with no
checklist table (which contributes no entries) or whose pagination control is
present but has no anchors, or whose final anchor has no forward affordance
or is marked current; the returned map folds in the rows of every fetched
page and no page past the terminal one is fetched — but page 10 and beyond
are never fetched even when page 9 is not terminal; and a 200 page carrying a
checklist table but no pagination div at all does not stop cleanly: it raises
`AttributeError` (as does a failed download, see C1). -/
theorem c3_pagination_with_cap (net : Nat → DownloadOutcome) (hok : okNet net) :
    (get_collector_number_to_multiverse_id_mapping net).result =
      .ok (List.foldl (pageAcc net) []
        (get_collector_number_to_multiverse_id_mapping net).fetched) ∧
    (∀ m ∈ (get_collector_number_to_multiverse_id_mapping net).fetched, m < 10) ∧
    0 ∈ (get_collector_number_to_multiverse_id_mapping net).fetched ∧
    (∀ m, m + 1 ∈ (get_collector_number_to_multiverse_id_mapping net).fetched →
      m ∈ (get_collector_number_to_multiverse_id_mapping net).fetched ∧
        continuesAt net m = true) ∧
    (∀ m ∈ (get_collector_number_to_multiverse_id_mapping net).fetched,
      continuesAt net m = true → m + 1 < 10 →
        m + 1 ∈ (get_collector_number_to_multiverse_id_mapping net).fetched) ∧
    (∀ n page, net n = .resp 200 page → page.table = none →
      continuesAt net n = false ∧ pageRows net n = []) ∧
    (∀ (net2 : Nat → DownloadOutcome) (page2 : ChecklistPage),
      net2 0 = .resp 200 page2 → page2.table.isSome = true →
      page2.pagingControls = none →
      (get_collector_number_to_multiverse_id_mapping net2).result =
        .error .attrError) := by
  have hrun : get_collector_number_to_multiverse_id_mapping net =
      ⟨.ok (List.foldl (pageAcc net) [] (fetchSeq net 0 10)), fetchSeq net 0 10, []⟩ := by
    unfold get_collector_number_to_multiverse_id_mapping
    rw [List.range_eq_range']
    exact mappingLoop_ok net hok 10 0 []
  rw [hrun]
  refine ⟨rfl, ?_, ?_, ?_, ?_, ?_, ?_⟩
  · intro m hm
    have := fetchSeq_mem_lt net 10 0 m hm
    omega
  · exact fetchSeq_self_mem net 0 10 (by omega)
  · intro m hm
    exact fetchSeq_succ_mem net 10 0 m (Nat.zero_le m) hm
  · intro m hm hc hlt
    exact fetchSeq_mem_succ net 10 0 m hm hc (by omega)
  · intro n page hnp htn
    have hdl : downloadChecklist net n = (some page, []) := by
      unfold downloadChecklist
      rw [hnp]
      rfl
    constructor
    · simp [continuesAt, hnp, htn]
    · unfold pageRows
      rw [hdl]
      show page.table.getD [] = []
      rw [htn]
      rfl
  · intro net2 page2 hnet2 htab2 hctl2
    rcases htab2' : page2.table with _ | rows2
    · rw [htab2'] at htab2
      cases htab2
    have hdl2 : downloadChecklist net2 0 = (some page2, []) := by
      unfold downloadChecklist
      rw [hnet2]
      rfl
    unfold get_collector_number_to_multiverse_id_mapping
    rw [List.range_eq_range']
    rw [show List.range' 0 10 = 0 :: List.range' 1 9 from rfl]
    simp only [mappingLoop, hdl2, htab2', hctl2]

/-- Counterexample for C3 as stated: on a network whose every page has a
checklist table and a live forward anchor, the loop stops after page 9 even
though page 9 satisfies no terminal condition, so the stated "stops exactly
at the terminal page" rule is violated by the hard `range(0, 10)` cap. -/
theorem c3_counterexample :
    (get_collector_number_to_multiverse_id_mapping (fun _ => .resp 200 contPage)).fetched =
      [0, 1, 2, 3, 4, 5, 6, 7, 8, 9] ∧
    continuesAt (fun _ => .resp 200 contPage) 9 = true :=
  ⟨rfl, rfl⟩

/-- Witness for C3 (amended): on a network whose page 0 continues and whose
page 1 has no checklist table, the run returns the fold over its fetched
pages and fetches page 0; page 1 is terminal with no entries; and on the
page-with-table-but-no-pagination-div network the run ends in
`AttributeError`. -/
theorem c3_witness :
    (get_collector_number_to_multiverse_id_mapping mixedNet).result =
      .ok (List.foldl (pageAcc mixedNet) []
        (get_collector_number_to_multiverse_id_mapping mixedNet).fetched) ∧
    0 ∈ (get_collector_number_to_multiverse_id_mapping mixedNet).fetched ∧
    (continuesAt mixedNet 1 = false ∧ pageRows mixedNet 1 = []) ∧
    (get_collector_number_to_multiverse_id_mapping (fun _ => .resp 200 crashPage)).result =
      .error .attrError :=
  have hok : okNet mixedNet := fun n =>
    match n with
    | 0 => ⟨contPage, rfl, fun _ => rfl⟩
    | _ + 1 => ⟨noTablePage, rfl, fun h => Bool.noConfusion h⟩
  ⟨(c3_pagination_with_cap mixedNet hok).1,
    (c3_pagination_with_cap mixedNet hok).2.2.1,
    (c3_pagination_with_cap mixedNet hok).2.2.2.2.2.1 1 noTablePage rfl rfl,
    (c3_pagination_with_cap mixedNet hok).2.2.2.2.2.2
      (fun _ => .resp 200 crashPage) crashPage rfl rfl rfl⟩

/-- Claim C7, amended: a later row (or page) repeating a collector number
overwrites the earlier entry in place (last-write-wins) and map construction
continues without error, but the duplicate is not logged: the mapping loop
emits no log record of its own (warnings only come from failed downloads). -/
theorem c7_last_write_wins (net : Nat → DownloadOutcome) (hgood : goodNet net) :
    (get_collector_number_to_multiverse_id_mapping net).warnings = [] ∧
    (∀ M, (get_collector_number_to_multiverse_id_mapping net).result = .ok M →
      M = rowFold []
        (((get_collector_number_to_multiverse_id_mapping net).fetched).flatMap
          (pageRows net))) ∧
    (∀ (m : List (List Char × List Char)) (rows : List ChecklistRow)
      (r : ChecklistRow) (k : List Char),
      dictGet (rowFold m (rows ++ [r])) k =
        if r.number = k then some (multiverseIdOfRow r)
        else dictGet (rowFold m rows) k) := by
  have hrun : get_collector_number_to_multiverse_id_mapping net =
      ⟨.ok (List.foldl (pageAcc net) [] (fetchSeq net 0 10)), fetchSeq net 0 10, []⟩ := by
    unfold get_collector_number_to_multiverse_id_mapping
    rw [List.range_eq_range']
    exact mappingLoop_good net hgood 10 0 []
  refine ⟨by rw [hrun], ?_, ?_⟩
  · intro M hM
    rw [hrun] at hM ⊢
    injection hM with hM
    rw [← hM]
    exact foldl_pageAcc net (fetchSeq net 0 10) []
  · intro m rows r k
    rw [rowFold_append, dictGet_dictInsert]

/-- Counterexample for C7 as stated: on a terminal page whose two rows share
collector number `1`, the run keeps the later multiverse id `200` and
finishes, but its warning log is empty — the claimed logging of the anomaly
does not happen. -/
theorem c7_counterexample :
    (get_collector_number_to_multiverse_id_mapping (fun _ => .resp 200 dupPage)).result =
      .ok [(chars "1", chars "200")] ∧
    (get_collector_number_to_multiverse_id_mapping (fun _ => .resp 200 dupPage)).warnings = [] :=
  ⟨rfl, rfl⟩

/-- Witness for C7 (amended) at the duplicate-row page: no warnings, and the
overwrite equation evaluated at the two concrete duplicate rows. -/
theorem c7_witness :
    (get_collector_number_to_multiverse_id_mapping (fun _ => .resp 200 dupPage)).warnings = [] ∧
    dictGet (rowFold [] ([⟨chars "1", chars "a=b=100"⟩] ++ [⟨chars "1", chars "c=200"⟩]))
        (chars "1") =
      if (⟨chars "1", chars "c=200"⟩ : ChecklistRow).number = chars "1"
      then some (multiverseIdOfRow ⟨chars "1", chars "c=200"⟩)
      else dictGet (rowFold [] [⟨chars "1", chars "a=b=100"⟩]) (chars "1") :=
  ⟨(c7_last_write_wins _ (fun _ => ⟨dupPage, rfl, rfl, rfl⟩)).1,
    (c7_last_write_wins (fun _ => .resp 200 dupPage)
        (fun _ => ⟨dupPage, rfl, rfl, rfl⟩)).2.2
      [] [⟨chars "1", chars "a=b=100"⟩] ⟨chars "1", chars "c=200"⟩ (chars "1")⟩

/-!
Claim theorem C10.
-/

theorem noFalsy_remove_bundle : ∀ N : Nat,
    (∀ v : JValue, sizeOf v ≤ N → noFalsyV (remove_null_fields v) = true) ∧
    (∀ l : List JValue, sizeOf l ≤ N → noFalsyArr (removeNullList l) = true) ∧
    (∀ ps : List (String × JValue), sizeOf ps ≤ N →
      noFalsyObj (removeNullPairs ps) = true) := by
  intro N
  induction N using Nat.strong_induction_on with
  | _ N ih =>
    refine ⟨?_, ?_, ?_⟩
    · intro v h
      cases v with
      | null => simp [remove_null_fields, noFalsyV]
      | bool b => simp [remove_null_fields, noFalsyV]
      | num n => simp [remove_null_fields, noFalsyV]
      | str s => simp [remove_null_fields, noFalsyV]
      | arr items =>
        have hs : sizeOf items < N := by simp at h; omega
        have h2 := (ih (sizeOf items) hs).2.1 items (Nat.le_refl _)
        simp [remove_null_fields, noFalsyV, h2]
      | obj fields =>
        have hs : sizeOf fields < N := by simp at h; omega
        have h2 := (ih (sizeOf fields) hs).2.2 fields (Nat.le_refl _)
        simp [remove_null_fields, noFalsyV, h2]
    · intro l h
      cases l with
      | nil => simp [removeNullList, noFalsyArr]
      | cons v t =>
        have hsv : sizeOf v < N := by simp at h; omega
        have hst : sizeOf t < N := by simp at h; omega
        have hv := (ih (sizeOf v) hsv).1 v (Nat.le_refl _)
        have ht := (ih (sizeOf t) hst).2.1 t (Nat.le_refl _)
        by_cases htw : truthy (remove_null_fields v) = true
        · simp [removeNullList, htw, noFalsyArr, hv, ht]
        · simp [removeNullList, htw, noFalsyArr, ht]
    · intro ps h
      cases ps with
      | nil => simp [removeNullPairs, noFalsyObj]
      | cons p t =>
        obtain ⟨kk, v⟩ := p
        have hsv : sizeOf v < N := by simp at h; omega
        have hst : sizeOf t < N := by simp at h; omega
        have hv := (ih (sizeOf v) hsv).1 v (Nat.le_refl _)
        have ht := (ih (sizeOf t) hst).2.2 t (Nat.le_refl _)
        by_cases htw : truthy (remove_null_fields v) = true
        · simp [removeNullPairs, htw, noFalsyObj, hv, ht]
        · simp [removeNullPairs, htw, noFalsyObj, ht]

/-- Claim C10: the value persisted by `write_to_compiled_file` has had every
falsy member — not just `null`, but also `0`, `False`, `""`, `[]` and empty
dicts — removed recursively at every nesting level; in particular a field
whose value is the number `0` or `False` is silently absent from the
persisted output. -/
theorem c10_remove_null_drops_falsy :
    (∀ v : JValue, noFalsyV (write_to_compiled_file v) = true) ∧
    write_to_compiled_file (.obj [("a", .num 0), ("b", .bool false), ("c", .str "x"),
        ("d", .arr [.null, .num 3]), ("e", .str "")]) =
      .obj [("c", .str "x"), ("d", .arr [.num 3])] := by
  constructor
  · intro v
    exact (noFalsy_remove_bundle (sizeOf v)).1 v (Nat.le_refl _)
  · simp [write_to_compiled_file, remove_null_fields, removeNullPairs, removeNullList, truthy]
